import Mathlib

/-!
Verification of the contact-directory program (`address_book.py`).

The development shallowly embeds the data model and the operations of the
source file: `Phone` validation, `Birthday` parsing (`datetime.strptime`
with format "%d.%m.%Y"), `Record` phone editing/removal, the `AddressBook`
dictionary operations, and the upcoming-birthday scheduling query
`get_upcoming_birthdays` together with its callers `change_record`,
`show_birthday` and `birthdays`.

Python's `datetime` values are modelled by a proleptic-Gregorian calendar
date (`Date`), the Rata-Die day number `toRD` (identical to Python's
`date.toordinal`), and `PyDateTime`, a date plus the microseconds elapsed
since midnight, so that the truncating `timedelta.days` attribute that the
source relies on can be modelled exactly (`pyDiffDays`).

Python exceptions are modelled by `Except PyError`; `PyError` distinguishes
the exception classes that the source's `input_error` decorator treats
differently (`ValueError` and `IndexError` are caught, `AttributeError` and
`OverflowError` escape).
-/

/-- Exception classes raised by the embedded code, mirroring the Python
exception classes that matter to the `input_error` decorator: it catches
`ValueError` and `IndexError` and lets everything else propagate. -/
inductive PyError where
  | valueError
  | indexError
  | attributeError
  | overflowError
deriving DecidableEq, Repr

/-- Message returned by `input_error` when a `ValueError` is caught. -/
def giveCorrectMsg : String :=
  "Give me correct values.\nType 'help' to see available commands."

/-- Message returned by `input_error` when an `IndexError` is caught. -/
def invalidArgsMsg : String :=
  "Invalid number of arguments.\nType 'help' to see available commands."

/-! ## Calendar model (Python `datetime.date` / `datetime.datetime`) -/

/-- A calendar date: year, month, day, as in Python's `datetime.date`
(proleptic Gregorian calendar). -/
structure Date where
  year : Nat
  month : Nat
  day : Nat
deriving DecidableEq, Repr

/-- Gregorian leap-year rule, as used by `datetime`. -/
def isLeap (y : Nat) : Bool :=
  y % 4 == 0 && (y % 100 != 0 || y % 400 == 0)

/-- Number of days in a month of a given year (Python `calendar.monthrange`
semantics, used implicitly by `datetime.date` validity checking). -/
def daysInMonth (y m : Nat) : Nat :=
  if m = 2 then (if isLeap y then 29 else 28)
  else if m = 4 ∨ m = 6 ∨ m = 9 ∨ m = 11 then 30
  else 31

/-- Days elapsed in year `y` strictly before month `m` begins. -/
def daysBeforeMonth (y m : Nat) : Nat :=
  let l : Nat := if isLeap y then 1 else 0
  match m with
  | 2 => 31
  | 3 => 59 + l
  | 4 => 90 + l
  | 5 => 120 + l
  | 6 => 151 + l
  | 7 => 181 + l
  | 8 => 212 + l
  | 9 => 243 + l
  | 10 => 273 + l
  | 11 => 304 + l
  | 12 => 334 + l
  | _ => 0

/-- Calendrical validity of a `Date`: exactly the dates accepted by
`datetime.date(year, month, day)` apart from the `year <= 9999` cap, which
is checked separately where the source can actually exceed it. -/
def validDate (d : Date) : Prop :=
  1 ≤ d.year ∧ 1 ≤ d.month ∧ d.month ≤ 12 ∧ 1 ≤ d.day ∧
    d.day ≤ daysInMonth d.year d.month

instance (d : Date) : Decidable (validDate d) := by
  unfold validDate; exact inferInstance

/-- Rata-Die day number of a date, identical to Python's
`datetime.date.toordinal`: day 1 is 0001-01-01. -/
def toRD (d : Date) : Nat :=
  let y := d.year - 1
  365 * y + y / 4 + y / 400 - y / 100 + daysBeforeMonth d.year d.month + d.day

/-- Weekday with Monday = 0 .. Sunday = 6, identical to Python's
`datetime.date.weekday` (0001-01-01 is a Monday). -/
def weekday (d : Date) : Nat :=
  (toRD d + 6) % 7

/-- Successor date (calendar increment by one day), used to model
`datetime + timedelta(days = n)`. -/
def nextDay (d : Date) : Date :=
  if d.day < daysInMonth d.year d.month then ⟨d.year, d.month, d.day + 1⟩
  else if d.month < 12 then ⟨d.year, d.month + 1, 1⟩
  else ⟨d.year + 1, 1, 1⟩

/-- Calendar addition of `n` days, modelling `datetime + timedelta(days=n)`
for nonnegative `n`. -/
def addDays : Date → Nat → Date
  | d, 0 => d
  | d, n + 1 => addDays (nextDay d) n

/-- Zero-pad a number to two digits, as `strftime` directives `%m`/`%d` do. -/
def pad2 (n : Nat) : String :=
  if n < 10 then "0" ++ toString n else toString n

/-- Format a date as `strftime('%Y.%m.%d')` does.  In the source this is
only reached for years between 1000 and 9999 (enforced by the occurrence
construction and the overflow check), where `%Y` prints the plain four-digit
year. -/
def fmtYMD (d : Date) : String :=
  toString d.year ++ "." ++ pad2 d.month ++ "." ++ pad2 d.day

/-- Microseconds per day; granularity of Python `datetime`/`timedelta`. -/
def usecPerDay : Nat := 86400000000

/-- A Python `datetime`: a calendar date together with the microseconds
elapsed since midnight.  `datetime.now()` in the source is a value of this
type; `datetime.strptime` results have `usecs = 0`. -/
structure PyDateTime where
  date : Date
  usecs : Nat
deriving DecidableEq, Repr

/-- The `.days` attribute of the Python `timedelta`
`occurrence_midnight - now`, where `occurrence_midnight` is `occ` at
midnight.  Python normalizes a `timedelta` so that `.days` is the floor of
the signed duration in days; `Int.fdiv` is that floor division. -/
def pyDiffDays (occ : Date) (now : PyDateTime) : Int :=
  Int.fdiv ((toRD occ : Int) * usecPerDay
    - ((toRD now.date : Int) * usecPerDay + now.usecs)) usecPerDay

/-- Difference between two calendar dates in whole days (the "daysBetween"
of the specification, on calendar dates). -/
def dateDiff (a b : Date) : Int :=
  (toRD a : Int) - (toRD b : Int)

/-! ## Field validators -/

/-- Fragment of Python's character classification used by `str.isdigit` and
by the `re` module's `\d` class.  Both accept every Unicode decimal digit
(category `Nd`); this model includes the ASCII digits U+0030..U+0039 and the
Arabic-Indic digits U+0660..U+0669, which are `Nd` characters, and classifies
every other code point as a non-digit.  Every character this predicate
accepts is genuinely accepted by Python; theorems quantifying over arbitrary
strings below therefore restrict to ASCII inputs, where this fragment is
exact. -/
def py_isdigit (c : Char) : Bool :=
  decide ((0x30 ≤ c.toNat ∧ c.toNat ≤ 0x39) ∨ (0x660 ≤ c.toNat ∧ c.toNat ≤ 0x669))

/-- Numeric value of a digit character, as Python's `int()` assigns it
(Unicode decimal digits carry their positional value). -/
def digitVal (c : Char) : Nat :=
  if 0x30 ≤ c.toNat ∧ c.toNat ≤ 0x39 then c.toNat - 0x30
  else if 0x660 ≤ c.toNat ∧ c.toNat ≤ 0x669 then c.toNat - 0x660
  else 0

/-- Value of a digit string, as Python's `int()` computes it. -/
def digitsToNat (cs : List Char) : Nat :=
  cs.foldl (fun acc c => 10 * acc + digitVal c) 0

/-- Python `str.isdigit`: true iff the string is nonempty and every
character is a digit. -/
def py_str_isdigit (s : String) : Bool :=
  !s.data.isEmpty && s.data.all py_isdigit

/-- The static validator `Phone._validate`:
`phone_number.isdigit() and len(phone_number) == 10`. -/
def phone_validate (s : String) : Bool :=
  py_str_isdigit s && s.data.length == 10

/-- The `Phone` constructor: raises `ValueError` unless `_validate` accepts
the value, and otherwise stores the raw string unchanged. -/
def mkPhone (s : String) : Except PyError String :=
  if phone_validate s then .ok s else .error .valueError

/-! ## strptime("%d.%m.%Y") -/

/-- Maximal digit prefix of a character list, together with the rest; the
behaviour of a greedy digit scan of the `_strptime` regex fragments. -/
def splitDigits : List Char → List Char × List Char
  | [] => ([], [])
  | c :: cs =>
    if py_isdigit c then
      let p := splitDigits cs
      (c :: p.1, p.2)
    else ([], c :: cs)

/-- Parse of `datetime.strptime(s, "%d.%m.%Y")` up to (but not including)
the calendar-validity check, returning `(day, month, year)`.

The `_strptime` module compiles the format to the anchored regex
`(3[01]|[12]\d|0[1-9]|[1-9])\.(1[0-2]|0[1-9]|[1-9])\.(\d\d\d\d)` and
requires it to consume the whole input.  Because the day and month
alternatives match only one or two digit characters and are followed by a
literal dot, a match forces each of the first two fields to be the maximal
digit run before a dot, of length one or two, with value in 1..31
(respectively 1..12), and the year field to be exactly four digits ending
the string. -/
def strptime_dmY (s : String) : Option (Nat × Nat × Nat) :=
  let pd := splitDigits s.data
  match pd.2 with
  | c1 :: r2 =>
    if c1 = '.' ∧ (pd.1.length = 1 ∨ pd.1.length = 2) ∧
        1 ≤ digitsToNat pd.1 ∧ digitsToNat pd.1 ≤ 31 then
      let pm := splitDigits r2
      match pm.2 with
      | c2 :: r4 =>
        if c2 = '.' ∧ (pm.1.length = 1 ∨ pm.1.length = 2) ∧
            1 ≤ digitsToNat pm.1 ∧ digitsToNat pm.1 ≤ 12 then
          let py := splitDigits r4
          if py.1.length = 4 ∧ py.2 = [] then
            some (digitsToNat pd.1, digitsToNat pm.1, digitsToNat py.1)
          else none
        else none
      | [] => none
    else none
  | [] => none

/-- The `Birthday` constructor: `datetime.strptime(value, "%d.%m.%Y").date()`,
re-raising any `ValueError`.  After the textual parse, `strptime` builds
`datetime.date(year, month, day)`, which raises `ValueError` for a
non-existent calendar date or a year below `MINYEAR = 1`. -/
def mkBirthday (s : String) : Except PyError Date :=
  match strptime_dmY s with
  | none => .error .valueError
  | some (dv, mv, yv) =>
    if validDate ⟨yv, mv, dv⟩ then .ok ⟨yv, mv, dv⟩ else .error .valueError

/-! ## Records and the address book -/

/-- A contact record: the `Record` class.  The trivial `Field`/`Name`/`Phone`
wrappers around plain values are flattened away: `name` is `record.name.value`,
`phones` lists each `phone.value`, `birthday` is `record.birthday.value` (or
`none` for Python `None`). -/
structure Record where
  name : String
  phones : List String
  birthday : Option Date
deriving DecidableEq, Repr

/-- The address book `self.data`: a Python `dict` from name to record,
modelled as an insertion-ordered association list with unique keys
maintained by `dict_insert`. -/
abbrev AddressBook : Type := List (String × Record)

/-- Python `dict.get`: the value at a key, if present. -/
def dict_get : AddressBook → String → Option Record
  | [], _ => none
  | (k, v) :: rest, key => if k = key then some v else dict_get rest key

/-- Python `dict.__setitem__`: replace the value in place if the key exists
(keeping its position), otherwise append the new pair. -/
def dict_insert : AddressBook → String → Record → AddressBook
  | [], key, v => [(key, v)]
  | (k, v') :: rest, key, v =>
    if k = key then (key, v) :: rest else (k, v') :: dict_insert rest key v

/-- The values view `self.data.values()`, in insertion order. -/
def dict_values (book : AddressBook) : List Record :=
  book.map Prod.snd

/-- `AddressBook.find`: returns the record, or the literal string
"Contact not found" (a plain value, not an exception). -/
def find (book : AddressBook) (name : String) : Record ⊕ String :=
  match dict_get book name with
  | some r => .inl r
  | none => .inr "Contact not found"

/-- Replace the value of the first list element equal to `old` by `new`;
the loop body of `Record.edit_phone`. -/
def replaceFirst : List String → String → String → List String
  | [], _, _ => []
  | p :: ps, old, new =>
    if p = old then new :: ps else p :: replaceFirst ps old new

/-- `Record.edit_phone`: walk the phone list and overwrite the value of the
first phone equal to `old_phone` with `new_phone` (no validation of the new
value, no signal when nothing matches). -/
def edit_phone (r : Record) (old_phone new_phone : String) : Record :=
  { r with phones := replaceFirst r.phones old_phone new_phone }

/-- Remove the first list element equal to `p`; the loop body of
`Record.remove_phone` (`Field` has no custom equality, so `list.remove(p)`
removes precisely the object `p` found by the scan, i.e. the first match). -/
def removeFirst : List String → String → List String
  | [], _ => []
  | q :: qs, p => if q = p then qs else q :: removeFirst qs p

/-- `Record.remove_phone`: drop the first phone equal to `phone`; silently a
no-op when nothing matches. -/
def remove_phone (r : Record) (phone : String) : Record :=
  { r with phones := removeFirst r.phones phone }

/-- `AddressBook.add_record(args)` under the `input_error` decorator.
Missing arguments raise `IndexError` (caught: arity message); an invalid
phone raises `ValueError` inside `Phone` (caught: correct-values message);
otherwise a fresh record with the single validated phone is stored under
`args[0]`, overwriting any existing entry. -/
def add_record (book : AddressBook) (args : List String) :
    AddressBook × String :=
  match args with
  | a0 :: a1 :: _ =>
    if phone_validate a1 then
      (dict_insert book a0 ⟨a0, [a1], none⟩,
        "Contact " ++ a0 ++ " was added.")
    else (book, giveCorrectMsg)
  | _ => (book, invalidArgsMsg)

/-- `AddressBook.change_record(args)` under `input_error`.  Unpacking `args`
into three names raises `ValueError` on any other length (caught).  On a
found record the in-place `edit_phone` mutation is modelled by re-storing
the edited record under its key; the success message is returned whether or
not any phone matched. -/
def change_record (book : AddressBook) (args : List String) :
    AddressBook × String :=
  match args with
  | [name, old_phone, new_phone] =>
    match dict_get book name with
    | some r =>
      (dict_insert book name (edit_phone r old_phone new_phone),
        "Phone number " ++ old_phone ++ " was changed to " ++ new_phone ++
          " for contact " ++ name ++ ".")
    | none => (book, "Contact not found")
  | _ => (book, giveCorrectMsg)

/-- The three shapes a `show_birthday` call can produce without crashing:
the stored birthday, Python `None` (record exists, no birthday), or a
message string produced by the `input_error` decorator. -/
inductive ShowBirthdayOutcome where
  | bday (d : Date)
  | noneSet
  | msg (s : String)
deriving DecidableEq, Repr

/-- `AddressBook.show_birthday(args)` under `input_error`.  `args[0]` on an
empty list raises `IndexError` (caught: arity message).  `find` may return
the "Contact not found" string, and `record.birthday` on that string raises
`AttributeError`, which `input_error` does not catch: the call crashes. -/
def show_birthday (book : AddressBook) (args : List String) :
    Except PyError ShowBirthdayOutcome :=
  match args with
  | [] => .ok (.msg invalidArgsMsg)
  | name :: _ =>
    match find book name with
    | .inl r =>
      match r.birthday with
      | some d => .ok (.bday d)
      | none => .ok .noneSet
    | .inr _ => .error .attributeError

/-! ## Upcoming-birthday scheduling -/

/-- Construction of this year's occurrence:
`datetime.strptime(f'{year}.{month}.{day}', "%Y.%m.%d")` where the three
numbers are formatted without padding.  The `%Y` directive matches exactly
four digits, so the parse fails unless `1000 <= y <= 9999`; the `%m` and
`%d` fields and the subsequent `datetime.date` construction succeed exactly
for a calendrically valid month/day, so any failure raises `ValueError`
(modelled by `none`). -/
def strpOcc (y mo dy : Nat) : Option Date :=
  if 1000 ≤ y ∧ y ≤ 9999 ∧ validDate ⟨y, mo, dy⟩ then some ⟨y, mo, dy⟩
  else none

/-- The weekend adjustment applied to a qualifying occurrence: a Saturday
or Sunday occurrence (weekday index 5 or 6) is moved forward by
`7 - weekday` days to the next Monday, any other occurrence is returned
unchanged. -/
def shiftWeekend (occ : Date) : Date :=
  if 5 ≤ weekday occ then addDays occ (7 - weekday occ) else occ

/-- One iteration of the `get_upcoming_birthdays` loop for a single record:
- `user.birthday.value` on a record without a birthday raises
  `AttributeError` (`None` has no attribute `value`);
- building this year's occurrence may raise `ValueError`;
- a qualifying occurrence (`0 <= difference <= 7`, computed on the
  `timedelta` between the occurrence at midnight and `now`) falling on a
  weekend is shifted forward by `7 - weekday` days, which can overflow past
  year 9999 (`OverflowError`);
- otherwise the `(name, formatted date)` entry is produced, or `none` when
  the record does not qualify. -/
def gub_step (now : PyDateTime) (user : Record) :
    Except PyError (Option (String × String)) :=
  match user.birthday with
  | none => .error .attributeError
  | some b =>
    match strpOcc now.date.year b.month b.day with
    | none => .error .valueError
    | some occ =>
      if 0 ≤ pyDiffDays occ now ∧ pyDiffDays occ now ≤ 7 then
        if 9999 < (shiftWeekend occ).year then .error .overflowError
        else .ok (some (user.name, fmtYMD (shiftWeekend occ)))
      else .ok none

/-- The `get_upcoming_birthdays` loop over a list of records: entries are
appended in iteration order and the first exception aborts the whole scan. -/
def gub_list (now : PyDateTime) : List Record →
    Except PyError (List (String × String))
  | [] => .ok []
  | u :: us =>
    match gub_step now u with
    | .error e => .error e
    | .ok o =>
      match gub_list now us with
      | .error e => .error e
      | .ok rest =>
        match o with
        | some entry => .ok (entry :: rest)
        | none => .ok rest

/-- `AddressBook.get_upcoming_birthdays`, with `datetime.now()` made an
explicit parameter `now`. -/
def get_upcoming_birthdays (book : AddressBook) (now : PyDateTime) :
    Except PyError (List (String × String)) :=
  gub_list now (dict_values book)

/-- `AddressBook.birthdays` under `input_error`: renders the query result,
with a `ValueError` from the scan converted to the correct-values message
and an `IndexError` (impossible here) to the arity message; `AttributeError`
and `OverflowError` escape the decorator. -/
def birthdays (book : AddressBook) (now : PyDateTime) :
    Except PyError String :=
  match get_upcoming_birthdays book now with
  | .error .valueError => .ok giveCorrectMsg
  | .error .indexError => .ok invalidArgsMsg
  | .error e => .error e
  | .ok [] => .ok "No upcoming birthdays."
  | .ok l =>
    .ok (String.intercalate "\n" (l.map (fun p => p.1 ++ " - " ++ p.2)))

/-! ## Helper lemmas: phone lists -/

/-- `replaceFirst` is the identity when the sought value is absent. -/
theorem replaceFirst_of_not_mem {ps : List String} {old : String}
    (h : old ∉ ps) (new : String) : replaceFirst ps old new = ps := by
  induction ps with
  | nil => rfl
  | cons p ps ih =>
    simp only [List.mem_cons, not_or] at h
    have hne : p ≠ old := fun e => h.1 e.symm
    simp [replaceFirst, hne, ih h.2]

/-- `replaceFirst` rewrites exactly the first occurrence. -/
theorem replaceFirst_append {pre post : List String} {old : String}
    (h : old ∉ pre) (new : String) :
    replaceFirst (pre ++ old :: post) old new = pre ++ new :: post := by
  induction pre with
  | nil => simp [replaceFirst]
  | cons p ps ih =>
    simp only [List.mem_cons, not_or] at h
    have hne : p ≠ old := fun e => h.1 e.symm
    simp [replaceFirst, hne, ih h.2]

/-- `removeFirst` is the identity when the sought value is absent. -/
theorem removeFirst_of_not_mem {ps : List String} {v : String}
    (h : v ∉ ps) : removeFirst ps v = ps := by
  induction ps with
  | nil => rfl
  | cons p ps ih =>
    simp only [List.mem_cons, not_or] at h
    have hne : p ≠ v := fun e => h.1 e.symm
    simp [removeFirst, hne, ih h.2]

/-- `removeFirst` drops exactly the first occurrence. -/
theorem removeFirst_append {pre post : List String} {v : String}
    (h : v ∉ pre) : removeFirst (pre ++ v :: post) v = pre ++ post := by
  induction pre with
  | nil => simp [removeFirst]
  | cons p ps ih =>
    simp only [List.mem_cons, not_or] at h
    have hne : p ≠ v := fun e => h.1 e.symm
    simp [removeFirst, hne, ih h.2]

/-! ## Helper lemmas: dictionary -/

/-- Looking up the key just inserted returns the inserted record. -/
theorem dict_get_insert_self (book : AddressBook) (k : String) (r : Record) :
    dict_get (dict_insert book k r) k = some r := by
  induction book with
  | nil => simp [dict_insert, dict_get]
  | cons p rest ih =>
    by_cases h : p.1 = k
    · simp [dict_insert, h, dict_get]
    · simp [dict_insert, h, dict_get, ih]

/-- Insertion leaves every other key unchanged. -/
theorem dict_get_insert_ne (book : AddressBook) (k : String) (r : Record)
    (k' : String) (h : k' ≠ k) :
    dict_get (dict_insert book k r) k' = dict_get book k' := by
  have hk : k ≠ k' := fun e => h e.symm
  induction book with
  | nil => simp [dict_insert, dict_get, hk]
  | cons p rest ih =>
    by_cases hp : p.1 = k
    · simp [dict_insert, hp, dict_get, hk]
    · simp [dict_insert, hp, dict_get, ih]

/-- Re-storing the record already present at a key is a no-op: this is how
the source's in-place mutation of a found record is reconciled with the
functional model. -/
theorem dict_insert_of_get (book : AddressBook) (k : String) (r : Record)
    (h : dict_get book k = some r) : dict_insert book k r = book := by
  induction book with
  | nil => simp [dict_get] at h
  | cons p rest ih =>
    by_cases hp : p.1 = k
    · simp [dict_get, hp] at h
      cases p with
      | mk k0 r0 => simp_all [dict_insert]
    · simp [dict_get, hp] at h
      simp [dict_insert, hp, ih h]

/-! ## Claims about record phone operations -/

/-- C10: `remove_phone` deletes only the first phone exactly equal to the
given value, leaving every other phone (including later duplicates), the
name and the birthday unchanged; when no phone matches, the record is
entirely unchanged and no error is signalled. -/
theorem C10_remove_phone_frame (r : Record) (v : String) :
    (v ∉ r.phones → remove_phone r v = r) ∧
    ∀ pre post, r.phones = pre ++ v :: post → v ∉ pre →
      remove_phone r v = { r with phones := pre ++ post } := by
  constructor
  · intro h
    simp [remove_phone, removeFirst_of_not_mem h]
  · intro pre post hsplit hpre
    simp [remove_phone, hsplit, removeFirst_append hpre]

/-- Witness for C10 at a concrete record with a duplicate phone: removing
"111" deletes only the first copy and keeps name, birthday and the later
duplicate; removing an absent value changes nothing. -/
theorem C10_remove_phone_frame_witness :
    remove_phone ⟨"Al", ["111", "222", "111"], some ⟨1990, 1, 2⟩⟩ "111" =
      ⟨"Al", ["222", "111"], some ⟨1990, 1, 2⟩⟩ ∧
    remove_phone ⟨"Al", ["111", "222", "111"], some ⟨1990, 1, 2⟩⟩ "333" =
      ⟨"Al", ["111", "222", "111"], some ⟨1990, 1, 2⟩⟩ := by
  constructor
  · exact (C10_remove_phone_frame ⟨"Al", ["111", "222", "111"], some ⟨1990, 1, 2⟩⟩
      "111").2 [] ["222", "111"] rfl (by decide)
  · exact (C10_remove_phone_frame ⟨"Al", ["111", "222", "111"], some ⟨1990, 1, 2⟩⟩
      "333").1 (by decide)

/-- C5 counterexample: `edit_phone` installs a new value that fails phone
validation — the replacement is not guarded by any validation, contradicting
the claim that the first phone is replaced "only after newValue passes phone
validation". -/
theorem C5_counterexample :
    edit_phone ⟨"Al", ["1234567890"], none⟩ "1234567890" "abc" =
      ⟨"Al", ["abc"], none⟩ ∧
    phone_validate "abc" = false := by
  constructor
  · rfl
  · decide

/-- C5 (amended): `edit_phone` replaces the value of the first phone exactly
equal to oldValue with newValue without validating newValue; when no phone
matches, the record is left completely unchanged and no signal of any kind
is produced (silent no-op, no exception). -/
theorem C5_edit_phone_amended (r : Record) (oldp newp : String) :
    (oldp ∉ r.phones → edit_phone r oldp newp = r) ∧
    ∀ pre post, r.phones = pre ++ oldp :: post → oldp ∉ pre →
      edit_phone r oldp newp = { r with phones := pre ++ newp :: post } := by
  constructor
  · intro h
    simp [edit_phone, replaceFirst_of_not_mem h]
  · intro pre post hsplit hpre
    simp [edit_phone, hsplit, replaceFirst_append hpre]

/-- Witness for the amended C5 at a concrete record: the first matching
phone is overwritten (even by a non-validating value), and a miss leaves the
record untouched. -/
theorem C5_edit_phone_amended_witness :
    edit_phone ⟨"Al", ["111", "222"], none⟩ "222" "bad!" =
      ⟨"Al", ["111", "bad!"], none⟩ ∧
    edit_phone ⟨"Al", ["111", "222"], none⟩ "333" "4445556667" =
      ⟨"Al", ["111", "222"], none⟩ := by
  constructor
  · exact (C5_edit_phone_amended ⟨"Al", ["111", "222"], none⟩ "222" "bad!").2
      ["111"] [] rfl (by decide)
  · exact (C5_edit_phone_amended ⟨"Al", ["111", "222"], none⟩ "333"
      "4445556667").1 (by decide)

/-- C9: when the contact exists but none of its phones equals the old phone,
`change_record` leaves the book unchanged yet still returns the success
message claiming the phone was changed — a successful edit and a
phone-not-found no-op are indistinguishable to the caller. -/
theorem C9_change_record_silent_noop (book : AddressBook)
    (name oldp newp : String) (r : Record)
    (hfind : dict_get book name = some r) (hmiss : oldp ∉ r.phones) :
    change_record book [name, oldp, newp] =
      (book, "Phone number " ++ oldp ++ " was changed to " ++ newp ++
        " for contact " ++ name ++ ".") := by
  have hedit : edit_phone r oldp newp = r := by
    simp [edit_phone, replaceFirst_of_not_mem hmiss]
  simp [change_record, hfind, hedit, dict_insert_of_get book name r hfind]

/-- Witness for C9: a concrete book where "333" is not one of Al's phones;
the call reports success and the book is unchanged. -/
theorem C9_change_record_silent_noop_witness :
    change_record [("Al", ⟨"Al", ["1234567890"], none⟩)]
        ["Al", "333", "4445556667"] =
      ([("Al", ⟨"Al", ["1234567890"], none⟩)],
        "Phone number " ++ "333" ++ " was changed to " ++ "4445556667" ++
          " for contact " ++ "Al" ++ ".") :=
  C9_change_record_silent_noop [("Al", ⟨"Al", ["1234567890"], none⟩)]
    "Al" "333" "4445556667" ⟨"Al", ["1234567890"], none⟩ (by decide) (by decide)

/-! ## Claims about the directory -/

/-- C8: for a valid phone, `add_record` stores a fresh record with exactly
that name and phone under the name key, overwriting any existing entry with
the same name (no uniqueness check), leaves all other keys unchanged, and
returns the confirmation message. -/
theorem C8_add_record_overwrites (book : AddressBook) (name phone : String)
    (rest : List String) (h : phone_validate phone = true) :
    add_record book (name :: phone :: rest) =
      (dict_insert book name ⟨name, [phone], none⟩,
        "Contact " ++ name ++ " was added.") ∧
    dict_get (dict_insert book name ⟨name, [phone], none⟩) name =
      some ⟨name, [phone], none⟩ ∧
    ∀ k, k ≠ name →
      dict_get (dict_insert book name ⟨name, [phone], none⟩) k =
        dict_get book k := by
  refine ⟨by simp [add_record, h], dict_get_insert_self book name _, ?_⟩
  intro k hk
  exact dict_get_insert_ne book name _ k hk

/-- Witness for C8 on a book that already contains "Ann": the existing
record is silently overwritten by the new single-phone record. -/
theorem C8_add_record_overwrites_witness :
    add_record [("Ann", ⟨"Ann", ["1111111111"], none⟩)] ["Ann", "2222222222"] =
      ([("Ann", ⟨"Ann", ["2222222222"], none⟩)], "Contact Ann was added.") := by
  have h := (C8_add_record_overwrites [("Ann", ⟨"Ann", ["1111111111"], none⟩)]
    "Ann" "2222222222" [] (by decide)).1
  rw [h]
  decide

/-- C4: `show_birthday` distinguishes only two of the three claimed outcomes
without raising.  It does return the stored birthday for a contact that has
one and Python `None` for a contact without one, but for a missing name it
evaluates `record.birthday` on the string "Contact not found", raising
`AttributeError` (which the `input_error` decorator does not catch) instead
of returning the not-found sentinel. -/
theorem C4_show_birthday_crashes :
    show_birthday [("Ann", ⟨"Ann", ["0123456789"], some ⟨1990, 1, 2⟩⟩),
        ("Bob", ⟨"Bob", [], none⟩)] ["Ann"] =
      .ok (.bday ⟨1990, 1, 2⟩) ∧
    show_birthday [("Ann", ⟨"Ann", ["0123456789"], some ⟨1990, 1, 2⟩⟩),
        ("Bob", ⟨"Bob", [], none⟩)] ["Bob"] = .ok .noneSet ∧
    show_birthday [("Ann", ⟨"Ann", ["0123456789"], some ⟨1990, 1, 2⟩⟩),
        ("Bob", ⟨"Bob", [], none⟩)] ["Eve"] = .error .attributeError := by
  refine ⟨rfl, rfl, rfl⟩

/-- C3: the scan is not robust per record.  A record without a birthday
raises `AttributeError`, aborting the whole scan (and `birthdays` does not
catch it); a birthday that cannot be projected onto the current year
(Feb 29 in a non-leap year) raises `ValueError`, which `birthdays` converts
into the correct-values message — in both cases the results for the other
records are lost, as the final conjuncts show they would have been produced
by a scan over the unaffected records alone. -/
theorem C3_scan_aborts :
    get_upcoming_birthdays
        [("A", ⟨"A", [], none⟩), ("B", ⟨"B", [], some ⟨1985, 6, 12⟩⟩)]
        ⟨⟨2024, 6, 10⟩, 0⟩ = .error .attributeError ∧
    birthdays [("A", ⟨"A", [], none⟩), ("B", ⟨"B", [], some ⟨1985, 6, 12⟩⟩)]
        ⟨⟨2024, 6, 10⟩, 0⟩ = .error .attributeError ∧
    get_upcoming_birthdays
        [("F", ⟨"F", [], some ⟨2004, 2, 29⟩⟩),
          ("B2", ⟨"B2", [], some ⟨1985, 3, 2⟩⟩)]
        ⟨⟨2023, 2, 27⟩, 0⟩ = .error .valueError ∧
    birthdays
        [("F", ⟨"F", [], some ⟨2004, 2, 29⟩⟩),
          ("B2", ⟨"B2", [], some ⟨1985, 3, 2⟩⟩)]
        ⟨⟨2023, 2, 27⟩, 0⟩ = .ok giveCorrectMsg ∧
    get_upcoming_birthdays [("B", ⟨"B", [], some ⟨1985, 6, 12⟩⟩)]
        ⟨⟨2024, 6, 10⟩, 0⟩ = .ok [("B", "2024.06.12")] ∧
    get_upcoming_birthdays [("B2", ⟨"B2", [], some ⟨1985, 3, 2⟩⟩)]
        ⟨⟨2023, 2, 27⟩, 0⟩ = .ok [("B2", "2023.03.02")] := by
  refine ⟨rfl, rfl, rfl, rfl, rfl, rfl⟩

/-! ## Claims about phone validation -/

/-- On the ASCII range the modelled digit predicate is exactly the ASCII
decimal digits. -/
theorem py_isdigit_ascii {c : Char} (h : c.toNat < 128) :
    py_isdigit c = true ↔ (0x30 ≤ c.toNat ∧ c.toNat ≤ 0x39) := by
  simp only [py_isdigit, decide_eq_true_eq]
  omega

/-- An ASCII decimal digit satisfies the digit predicate. -/
theorem py_isdigit_of_range {c : Char} (h1 : 0x30 ≤ c.toNat)
    (h2 : c.toNat ≤ 0x39) : py_isdigit c = true := by
  simp only [py_isdigit, decide_eq_true_eq]
  omega

/-- For ASCII input, `Phone._validate` accepts exactly the strings of ten
ASCII decimal digits. -/
theorem phone_validate_ascii (s : String)
    (hascii : ∀ c ∈ s.data, c.toNat < 128) :
    phone_validate s = true ↔
      (s.data.length = 10 ∧ ∀ c ∈ s.data, 0x30 ≤ c.toNat ∧ c.toNat ≤ 0x39) := by
  unfold phone_validate py_str_isdigit
  rw [Bool.and_eq_true, Bool.and_eq_true, List.all_eq_true]
  constructor
  · rintro ⟨⟨-, hall⟩, hlen⟩
    refine ⟨by simpa using hlen, fun c hc => ?_⟩
    exact (py_isdigit_ascii (hascii c hc)).1 (hall c hc)
  · rintro ⟨hlen, hdig⟩
    have hne : s.data ≠ [] := by
      intro e
      rw [e] at hlen
      simp at hlen
    refine ⟨⟨?_, fun c hc => py_isdigit_of_range (hdig c hc).1 (hdig c hc).2⟩,
      by simpa using hlen⟩
    simpa [Bool.not_eq_true', List.isEmpty_eq_false] using hne

/-- C6 counterexample: the string of ten Arabic-Indic digits U+0660 passes
`Phone` validation and is stored unchanged, although none of its characters
is an ASCII decimal digit — validation succeeds on more than the claimed
"exactly 10 ASCII decimal digit characters". -/
theorem C6_counterexample :
    mkPhone (String.mk (List.replicate 10 (Char.ofNat 0x660))) =
      .ok (String.mk (List.replicate 10 (Char.ofNat 0x660))) ∧
    ¬ ∀ c ∈ (String.mk (List.replicate 10 (Char.ofNat 0x660))).data,
        0x30 ≤ c.toNat ∧ c.toNat ≤ 0x39 := by
  constructor
  · rfl
  · decide

/-- C6 (amended): for ASCII input, `validatePhone` succeeds iff the string
is exactly 10 ASCII decimal digits, and on success the stored value is the
raw string unchanged; every other ASCII input fails with the
`ValueError` that signals the invalid phone format.  (On non-ASCII input
Python's `str.isdigit` also accepts other Unicode decimal digits, see the
counterexample.) -/
theorem C6_phone_validation_ascii (s : String)
    (hascii : ∀ c ∈ s.data, c.toNat < 128) :
    (mkPhone s = .ok s ↔
      (s.data.length = 10 ∧ ∀ c ∈ s.data, 0x30 ≤ c.toNat ∧ c.toNat ≤ 0x39)) ∧
    (¬ (s.data.length = 10 ∧ ∀ c ∈ s.data, 0x30 ≤ c.toNat ∧ c.toNat ≤ 0x39) →
      mkPhone s = .error .valueError) := by
  have key := phone_validate_ascii s hascii
  constructor
  · constructor
    · intro hok
      by_cases hv : phone_validate s
      · exact key.1 hv
      · simp [mkPhone, hv] at hok
    · intro hc
      simp [mkPhone, key.2 hc]
  · intro hc
    have hv : ¬ phone_validate s = true := fun hv => hc (key.1 hv)
    simp [mkPhone, hv]

/-- Witness for the amended C6 at the concrete all-ASCII string
"0123456789". -/
theorem C6_phone_validation_ascii_witness :
    (mkPhone "0123456789" = .ok "0123456789" ↔
      ("0123456789".data.length = 10 ∧
        ∀ c ∈ "0123456789".data, 0x30 ≤ c.toNat ∧ c.toNat ≤ 0x39)) ∧
    (¬ ("0123456789".data.length = 10 ∧
        ∀ c ∈ "0123456789".data, 0x30 ≤ c.toNat ∧ c.toNat ≤ 0x39) →
      mkPhone "0123456789" = .error .valueError) :=
  C6_phone_validation_ascii "0123456789" (by decide)

/-! ## Claims about birthday parsing -/

/-- The two pieces returned by `splitDigits` concatenate back to the input. -/
theorem splitDigits_append (cs : List Char) :
    (splitDigits cs).1 ++ (splitDigits cs).2 = cs := by
  induction cs with
  | nil => rfl
  | cons c cs ih =>
    by_cases hc : py_isdigit c
    · simp [splitDigits, hc, ih]
    · simp [splitDigits, hc]

/-- Every character of the digit prefix is a digit. -/
theorem splitDigits_digits (cs : List Char) :
    ∀ c ∈ (splitDigits cs).1, py_isdigit c = true := by
  induction cs with
  | nil => simp [splitDigits]
  | cons c cs ih =>
    by_cases hc : py_isdigit c
    · simpa [splitDigits, hc] using ih
    · simp [splitDigits, hc]

/-- `splitDigits` computed on a digit run followed by a non-digit. -/
theorem splitDigits_of_run {ds : List Char}
    (hds : ∀ c ∈ ds, py_isdigit c = true) {x : Char}
    (hx : py_isdigit x = false) (r : List Char) :
    splitDigits (ds ++ x :: r) = (ds, x :: r) := by
  induction ds with
  | nil => simp [splitDigits, hx]
  | cons d ds ih =>
    have hd : py_isdigit d = true := hds d (by simp)
    have hrest : ∀ c ∈ ds, py_isdigit c = true := fun c hc => hds c (by simp [hc])
    simp [splitDigits, hd, ih hrest]

/-- `splitDigits` computed on a pure digit run. -/
theorem splitDigits_all {ds : List Char}
    (hds : ∀ c ∈ ds, py_isdigit c = true) :
    splitDigits ds = (ds, []) := by
  induction ds with
  | nil => rfl
  | cons d ds ih =>
    have hd : py_isdigit d = true := hds d (by simp)
    have hrest : ∀ c ∈ ds, py_isdigit c = true := fun c hc => hds c (by simp [hc])
    simp [splitDigits, hd, ih hrest]

/-- Months never exceed 31 days. -/
theorem daysInMonth_le_31 (y m : Nat) : daysInMonth y m ≤ 31 := by
  unfold daysInMonth
  split
  · split <;> omega
  · split <;> omega

/-- Months always have at least 28 days. -/
theorem daysInMonth_pos (y m : Nat) : 1 ≤ daysInMonth y m := by
  unfold daysInMonth
  split
  · split <;> omega
  · split <;> omega

/-- C7 counterexample: the input "5.6.2020" — one-digit day and month, not
the claimed strict two-digit `DD.MM.YYYY` shape — is parsed successfully by
the `Birthday` constructor instead of failing with the invalid-format error. -/
theorem C7_counterexample :
    mkBirthday "5.6.2020" = .ok ⟨2020, 6, 5⟩ ∧ "5.6.2020".data.length = 8 := by
  constructor
  · rfl
  · rfl


/-- Success characterization of the `Birthday` constructor in terms of the
textual parse and calendar validity. -/
theorem mkBirthday_ok_iff (s : String) (y mo dy : Nat) :
    mkBirthday s = .ok ⟨y, mo, dy⟩ ↔
      strptime_dmY s = some (dy, mo, y) ∧ validDate ⟨y, mo, dy⟩ := by
  unfold mkBirthday
  rcases hp : strptime_dmY s with - | ⟨dv, mv, yv⟩
  · simp
  · by_cases hv : validDate ⟨yv, mv, dv⟩
    · simp only [hv, if_true, Except.ok.injEq, Option.some.injEq,
        Prod.mk.injEq, Date.mk.injEq]
      constructor
      · rintro ⟨h1, h2, h3⟩
        subst h1 h2 h3
        exact ⟨⟨rfl, rfl, rfl⟩, hv⟩
      · rintro ⟨⟨h1, h2, h3⟩, -⟩
        subst h1 h2 h3
        exact ⟨rfl, rfl, rfl⟩
    · simp only [hv, if_false]
      constructor
      · intro h
        exact absurd h (by simp)
      · rintro ⟨h, hval⟩
        simp only [Option.some.injEq, Prod.mk.injEq] at h
        obtain ⟨h1, h2, h3⟩ := h
        subst h1 h2 h3
        exact absurd hval hv

/-- Success characterization of the textual `strptime("%d.%m.%Y")` parse:
the input splits as a one- or two-digit day run, a dot, a one- or two-digit
month run, a dot, and a four-digit year run ending the string, with the day
in 1..31 and the month in 1..12. -/
theorem strptime_dmY_eq_some (s : String) (dv mv yv : Nat) :
    strptime_dmY s = some (dv, mv, yv) ↔
      ∃ D M Y : List Char,
        s.data = D ++ '.' :: (M ++ '.' :: Y) ∧
        (∀ c ∈ D, py_isdigit c = true) ∧ (∀ c ∈ M, py_isdigit c = true) ∧
        (∀ c ∈ Y, py_isdigit c = true) ∧
        (D.length = 1 ∨ D.length = 2) ∧ 1 ≤ digitsToNat D ∧
        digitsToNat D ≤ 31 ∧
        (M.length = 1 ∨ M.length = 2) ∧ 1 ≤ digitsToNat M ∧
        digitsToNat M ≤ 12 ∧
        Y.length = 4 ∧
        digitsToNat D = dv ∧ digitsToNat M = mv ∧ digitsToNat Y = yv := by
  constructor
  · intro h
    rcases hsd : splitDigits s.data with ⟨D, rest1⟩
    have hDdig : ∀ c ∈ D, py_isdigit c = true := by
      have := splitDigits_digits s.data
      simp only [hsd] at this
      exact this
    have hDapp : D ++ rest1 = s.data := by
      have := splitDigits_append s.data
      simp only [hsd] at this
      exact this
    rcases rest1 with - | ⟨c1, r2⟩
    · simp only [strptime_dmY, hsd] at h
      exact absurd h (by simp)
    · simp only [strptime_dmY, hsd] at h
      split at h
      · rename_i hcond1
        obtain ⟨hc1, hDlen, hD1, hD31⟩ := hcond1
        subst hc1
        rcases hsm : splitDigits r2 with ⟨M, rest2⟩
        have hMdig : ∀ c ∈ M, py_isdigit c = true := by
          have := splitDigits_digits r2
          simp only [hsm] at this
          exact this
        have hMapp : M ++ rest2 = r2 := by
          have := splitDigits_append r2
          simp only [hsm] at this
          exact this
        rcases rest2 with - | ⟨c2, r4⟩
        · simp only [hsm] at h
          exact absurd h (by simp)
        · simp only [hsm] at h
          split at h
          · rename_i hcond2
            obtain ⟨hc2, hMlen, hM1, hM12⟩ := hcond2
            subst hc2
            rcases hsy : splitDigits r4 with ⟨Y, rest3⟩
            have hYdig : ∀ c ∈ Y, py_isdigit c = true := by
              have := splitDigits_digits r4
              simp only [hsy] at this
              exact this
            have hYapp : Y ++ rest3 = r4 := by
              have := splitDigits_append r4
              simp only [hsy] at this
              exact this
            simp only [hsy] at h
            split at h
            · rename_i hcond3
              obtain ⟨hY4, hrest3⟩ := hcond3
              subst hrest3
              simp only [Option.some.injEq, Prod.mk.injEq] at h
              obtain ⟨h1, h2, h3⟩ := h
              refine ⟨D, M, Y, ?_, hDdig, hMdig, hYdig, hDlen, hD1, hD31,
                hMlen, hM1, hM12, hY4, h1, h2, h3⟩
              rw [← hDapp, ← hMapp, ← hYapp]
              simp
            · exact absurd h (by simp)
          · exact absurd h (by simp)
      · exact absurd h (by simp)
  · rintro ⟨D, M, Y, hsplit, hD, hM, hY, hDlen, hD1, hD31, hMlen, hM1,
      hM12, hY4, hdv, hmv, hyv⟩
    subst hdv hmv hyv
    have h1 : splitDigits s.data = (D, '.' :: (M ++ '.' :: Y)) := by
      rw [hsplit]
      exact splitDigits_of_run hD (by decide) _
    have h2 : splitDigits (M ++ '.' :: Y) = (M, '.' :: Y) :=
      splitDigits_of_run hM (by decide) _
    have h3 : splitDigits Y = (Y, []) := splitDigits_all hY
    simp [strptime_dmY, h1, h2, h3, hDlen, hD1, hD31, hMlen, hM1, hM12, hY4]

/-- C7 (amended): for ASCII input, `parseBirthday` succeeds exactly on
inputs of the shape day ++ "." ++ month ++ "." ++ year where the day and the
month are one- or two-digit runs (a leading zero is permitted, so one-digit
forms like "5.6.2020" are accepted contrary to the strict two-digit claim),
the year is exactly a four-digit run ending the string, and the three
numbers denote a real calendar date; year, month and day are preserved.
Every failure is the `ValueError` signalling an invalid date format. -/
theorem C7_birthday_parse_ascii (s : String)
    (hascii : ∀ c ∈ s.data, c.toNat < 128) :
    (∀ y mo dy : Nat, mkBirthday s = .ok ⟨y, mo, dy⟩ ↔
      ∃ D M Y : List Char, s.data = D ++ '.' :: (M ++ '.' :: Y) ∧
        (∀ c ∈ D, 0x30 ≤ c.toNat ∧ c.toNat ≤ 0x39) ∧
        (∀ c ∈ M, 0x30 ≤ c.toNat ∧ c.toNat ≤ 0x39) ∧
        (∀ c ∈ Y, 0x30 ≤ c.toNat ∧ c.toNat ≤ 0x39) ∧
        (D.length = 1 ∨ D.length = 2) ∧ (M.length = 1 ∨ M.length = 2) ∧
        Y.length = 4 ∧
        digitsToNat D = dy ∧ digitsToNat M = mo ∧ digitsToNat Y = y ∧
        validDate ⟨y, mo, dy⟩) ∧
    (∀ e, mkBirthday s = .error e → e = .valueError) := by
  constructor
  · intro y mo dy
    rw [mkBirthday_ok_iff, strptime_dmY_eq_some]
    constructor
    · rintro ⟨⟨D, M, Y, hsplit, hD, hM, hY, hDlen, hD1, hD31, hMlen, hM1,
        hM12, hY4, hdv, hmv, hyv⟩, hvalid⟩
      have hmemD : ∀ c ∈ D, c ∈ s.data := by
        intro c hc
        rw [hsplit]
        simp [hc]
      have hmemM : ∀ c ∈ M, c ∈ s.data := by
        intro c hc
        rw [hsplit]
        simp [hc]
      have hmemY : ∀ c ∈ Y, c ∈ s.data := by
        intro c hc
        rw [hsplit]
        simp [hc]
      exact ⟨D, M, Y, hsplit,
        fun c hc => (py_isdigit_ascii (hascii c (hmemD c hc))).1 (hD c hc),
        fun c hc => (py_isdigit_ascii (hascii c (hmemM c hc))).1 (hM c hc),
        fun c hc => (py_isdigit_ascii (hascii c (hmemY c hc))).1 (hY c hc),
        hDlen, hMlen, hY4, hdv, hmv, hyv, hvalid⟩
    · rintro ⟨D, M, Y, hsplit, hD, hM, hY, hDlen, hMlen, hY4, hdv, hmv,
        hyv, hvalid⟩
      have hvalid2 := hvalid
      obtain ⟨hy1, hmo1, hmo12, hdy1, hdy2⟩ :
          1 ≤ y ∧ 1 ≤ mo ∧ mo ≤ 12 ∧ 1 ≤ dy ∧ dy ≤ daysInMonth y mo :=
        hvalid2
      have hdy31 : dy ≤ 31 :=
        le_trans hdy2 (daysInMonth_le_31 y mo)
      refine ⟨⟨D, M, Y, hsplit,
        fun c hc => py_isdigit_of_range (hD c hc).1 (hD c hc).2,
        fun c hc => py_isdigit_of_range (hM c hc).1 (hM c hc).2,
        fun c hc => py_isdigit_of_range (hY c hc).1 (hY c hc).2,
        hDlen, ?_, ?_, hMlen, ?_, ?_, hY4, hdv, hmv, hyv⟩, hvalid⟩
      · omega
      · omega
      · omega
      · omega
  · intro e he
    unfold mkBirthday at he
    rcases hp : strptime_dmY s with - | ⟨dv, mv, yv⟩
    · simp only [hp] at he
      simp only [Except.error.injEq] at he
      exact he.symm
    · simp only [hp] at he
      split at he
      · exact absurd he (by simp)
      · simp only [Except.error.injEq] at he
        exact he.symm

/-- Witness for the amended C7 at the concrete ASCII input "05.06.2020". -/
theorem C7_birthday_parse_ascii_witness :
    (∀ y mo dy : Nat, mkBirthday "05.06.2020" = .ok ⟨y, mo, dy⟩ ↔
      ∃ D M Y : List Char,
        "05.06.2020".data = D ++ '.' :: (M ++ '.' :: Y) ∧
        (∀ c ∈ D, 0x30 ≤ c.toNat ∧ c.toNat ≤ 0x39) ∧
        (∀ c ∈ M, 0x30 ≤ c.toNat ∧ c.toNat ≤ 0x39) ∧
        (∀ c ∈ Y, 0x30 ≤ c.toNat ∧ c.toNat ≤ 0x39) ∧
        (D.length = 1 ∨ D.length = 2) ∧ (M.length = 1 ∨ M.length = 2) ∧
        Y.length = 4 ∧
        digitsToNat D = dy ∧ digitsToNat M = mo ∧ digitsToNat Y = y ∧
        validDate ⟨y, mo, dy⟩) ∧
    (∀ e, mkBirthday "05.06.2020" = .error e → e = .valueError) :=
  C7_birthday_parse_ascii "05.06.2020" (by decide)

/-! ## Claims about the scheduling window and weekend shift -/

/-- The truncating `timedelta.days` in terms of the calendar-day difference:
it equals the date difference when `now` is exactly midnight and one less
otherwise. -/
theorem pyDiffDays_eq (occ : Date) (now : PyDateTime)
    (h : now.usecs < usecPerDay) :
    pyDiffDays occ now =
      dateDiff occ now.date - (if now.usecs = 0 then 0 else 1) := by
  unfold pyDiffDays dateDiff usecPerDay at *
  rw [Int.fdiv_eq_ediv _ (by norm_num)]
  split <;> rename_i h0
  · rw [h0]
    omega
  · have h1 : 0 < now.usecs := Nat.pos_of_ne_zero h0
    omega

/-- The code's qualification window `0 <= difference <= 7`, rephrased on
calendar-day differences: occurrences from today through seven days ahead
qualify only when the scan runs exactly at midnight; at any later time of
day the window is occurrences from tomorrow through eight days ahead. -/
theorem pyWindow_iff (occ : Date) (now : PyDateTime)
    (h : now.usecs < usecPerDay) :
    (0 ≤ pyDiffDays occ now ∧ pyDiffDays occ now ≤ 7) ↔
      (if now.usecs = 0
        then 0 ≤ dateDiff occ now.date ∧ dateDiff occ now.date ≤ 7
        else 1 ≤ dateDiff occ now.date ∧ dateDiff occ now.date ≤ 8) := by
  rw [pyDiffDays_eq occ now h]
  split <;> omega

/-- Characterization of the occurrence construction. -/
theorem strpOcc_eq_some (y mo dy : Nat) (occ : Date) :
    strpOcc y mo dy = some occ ↔
      occ = ⟨y, mo, dy⟩ ∧ 1000 ≤ y ∧ y ≤ 9999 ∧ validDate ⟨y, mo, dy⟩ := by
  unfold strpOcc
  split <;> rename_i hc
  · obtain ⟨h1, h2, h3⟩ := hc
    simp only [Option.some.injEq]
    constructor
    · intro h
      exact ⟨h.symm, h1, h2, h3⟩
    · intro h
      exact h.1.symm
  · constructor
    · intro h
      exact absurd h (by simp)
    · rintro ⟨-, h1, h2, h3⟩
      exact absurd ⟨h1, h2, h3⟩ hc

/-- Cumulative month lengths advance by the length of the month. -/
theorem daysBeforeMonth_succ (y m : Nat) (h1 : 1 ≤ m) (h2 : m ≤ 11) :
    daysBeforeMonth y (m + 1) = daysBeforeMonth y m + daysInMonth y m := by
  interval_cases m <;>
    cases hL : isLeap y <;>
      simp [daysBeforeMonth, daysInMonth, hL]

/-- The day successor is still a valid date. -/
theorem validDate_nextDay {d : Date} (h : validDate d) :
    validDate (nextDay d) := by
  obtain ⟨hy, hm1, hm2, hd1, hd2⟩ := h
  unfold nextDay
  split <;> rename_i hday
  · show 1 ≤ d.year ∧ 1 ≤ d.month ∧ d.month ≤ 12 ∧ 1 ≤ d.day + 1 ∧
      d.day + 1 ≤ daysInMonth d.year d.month
    exact ⟨hy, hm1, hm2, by omega, hday⟩
  · split <;> rename_i hmon
    · show 1 ≤ d.year ∧ 1 ≤ d.month + 1 ∧ d.month + 1 ≤ 12 ∧ 1 ≤ 1 ∧
        1 ≤ daysInMonth d.year (d.month + 1)
      exact ⟨hy, by omega, by omega, le_refl 1, daysInMonth_pos _ _⟩
    · show 1 ≤ d.year + 1 ∧ 1 ≤ 1 ∧ 1 ≤ 12 ∧ 1 ≤ 1 ∧
        1 ≤ daysInMonth (d.year + 1) 1
      exact ⟨by omega, le_refl 1, by omega, le_refl 1, daysInMonth_pos _ _⟩

set_option maxHeartbeats 1600000 in
/-- Year-rollover step of the Rata-Die count: from December 31 of year `y`
to January 1 of year `y + 1`. -/
theorem toRD_year_step (y : Nat) (hy : 1 ≤ y) :
    365 * (y + 1 - 1) + (y + 1 - 1) / 4 + (y + 1 - 1) / 400
      - (y + 1 - 1) / 100 + daysBeforeMonth (y + 1) 1 + 1 =
    365 * (y - 1) + (y - 1) / 4 + (y - 1) / 400 - (y - 1) / 100
      + daysBeforeMonth y 12 + 31 + 1 := by
  simp only [daysBeforeMonth]
  by_cases h4 : y % 4 = 0 <;> by_cases h100 : y % 100 = 0 <;>
    by_cases h400 : y % 400 = 0 <;>
      simp [isLeap, h4, h100, h400] <;> omega

/-- The Rata-Die number of the day successor is one more: the calendar
increment and the linear day count agree on valid dates. -/
theorem toRD_nextDay (d : Date) (h : validDate d) :
    toRD (nextDay d) = toRD d + 1 := by
  obtain ⟨hy, hm1, hm2, hd1, hd2⟩ := h
  unfold nextDay
  split <;> rename_i hday
  · simp only [toRD]
    omega
  · split <;> rename_i hmon
    · have hstep := daysBeforeMonth_succ d.year d.month hm1 (by omega)
      have hdim : d.day = daysInMonth d.year d.month := by omega
      simp only [toRD]
      omega
    · have hm12 : d.month = 12 := by omega
      have hdim31 : daysInMonth d.year d.month = 31 := by
        rw [hm12]
        simp [daysInMonth]
      have hday31 : d.day = 31 := by omega
      simp only [toRD, hm12, hday31]
      exact toRD_year_step d.year hy

/-- Rata-Die numbers are linear under calendar day addition on valid dates. -/
theorem toRD_addDays (d : Date) (h : validDate d) (n : Nat) :
    toRD (addDays d n) = toRD d + n := by
  induction n generalizing d with
  | zero => rfl
  | succ n ih =>
    have hv := validDate_nextDay h
    calc toRD (addDays d (n + 1)) = toRD (addDays (nextDay d) n) := rfl
    _ = toRD (nextDay d) + n := ih (nextDay d) hv
    _ = toRD d + (n + 1) := by rw [toRD_nextDay d h]; omega

/-- Weekdays advance with calendar day addition on valid dates. -/
theorem weekday_addDays (d : Date) (h : validDate d) (n : Nat) :
    weekday (addDays d n) = (weekday d + n) % 7 := by
  unfold weekday
  rw [toRD_addDays d h n]
  omega

/-- Weekdays are always below 7. -/
theorem weekday_lt_7 (d : Date) : weekday d < 7 := by
  unfold weekday
  omega

/-- The weekend shift of the source lands on a Monday for valid dates. -/
theorem weekday_shift_monday (d : Date) (h : validDate d)
    (hw : 5 ≤ weekday d) :
    weekday (addDays d (7 - weekday d)) = 0 := by
  rw [weekday_addDays d h]
  have := weekday_lt_7 d
  omega

/-- If the whole scan succeeds, every record's step succeeded, and every
entry a step produced appears in the output. -/
theorem gub_list_ok_of_mem {now : PyDateTime} {us : List Record}
    {out : List (String × String)} (h : gub_list now us = .ok out)
    {u : Record} (hu : u ∈ us) :
    ∃ o, gub_step now u = .ok o ∧ ∀ e, o = some e → e ∈ out := by
  induction us generalizing out with
  | nil => exact absurd hu (List.not_mem_nil u)
  | cons v us ih =>
    simp only [gub_list] at h
    rcases hs : gub_step now v with e | o <;> rw [hs] at h
    · exact absurd h (by simp)
    · rcases hr : gub_list now us with e | rest <;> rw [hr] at h
      · exact absurd h (by simp)
      · rw [List.mem_cons] at hu
        rcases o with - | entry
        · injection h with h
          subst h
          rcases hu with rfl | hu
          · exact ⟨none, hs, by simp⟩
          · exact ih hr hu
        · injection h with h
          subst h
          rcases hu with rfl | hu
          · refine ⟨some entry, hs, fun e he => ?_⟩
            injection he with he
            subst he
            exact List.mem_cons_self _ _
          · obtain ⟨o', ho', hmem⟩ := ih hr hu
            exact ⟨o', ho', fun e he => List.mem_cons_of_mem _ (hmem e he)⟩

/-- Every entry of a successful scan was produced by the step of some
record of the list. -/
theorem gub_list_mem_src {now : PyDateTime} {us : List Record}
    {out : List (String × String)} (h : gub_list now us = .ok out)
    {e : String × String} (he : e ∈ out) :
    ∃ u, u ∈ us ∧ gub_step now u = .ok (some e) := by
  induction us generalizing out with
  | nil =>
    simp only [gub_list] at h
    injection h with h
    subst h
    exact absurd he (List.not_mem_nil e)
  | cons v us ih =>
    simp only [gub_list] at h
    rcases hs : gub_step now v with e' | o <;> rw [hs] at h
    · exact absurd h (by simp)
    · rcases hr : gub_list now us with e' | rest <;> rw [hr] at h
      · exact absurd h (by simp)
      · rcases o with - | entry
        · injection h with h
          subst h
          obtain ⟨u, hu, hstep⟩ := ih hr he
          exact ⟨u, List.mem_cons_of_mem _ hu, hstep⟩
        · injection h with h
          subst h
          rw [List.mem_cons] at he
          rcases he with rfl | he
          · exact ⟨v, List.mem_cons_self _ _, hs⟩
          · obtain ⟨u, hu, hstep⟩ := ih hr he
            exact ⟨u, List.mem_cons_of_mem _ hu, hstep⟩

/-- Dissection of a step that produced an entry: the record has a birthday,
its occurrence this year exists, the occurrence qualifies for the window,
and the entry carries the record's name and the formatted (possibly
weekend-shifted) occurrence. -/
theorem gub_step_ok_some {now : PyDateTime} {u : Record} {n st : String}
    (h : gub_step now u = .ok (some (n, st))) :
    ∃ b occ, u.birthday = some b ∧
      strpOcc now.date.year b.month b.day = some occ ∧
      0 ≤ pyDiffDays occ now ∧ pyDiffDays occ now ≤ 7 ∧
      n = u.name ∧ st = fmtYMD (shiftWeekend occ) := by
  unfold gub_step at h
  rcases hb : u.birthday with - | b <;> simp only [hb] at h
  · exact absurd h (by simp)
  · rcases ho : strpOcc now.date.year b.month b.day with - | occ <;>
      simp only [ho] at h
    · exact absurd h (by simp)
    · split at h
      · rename_i hwin
        split at h
        · exact absurd h (by simp)
        · simp only [Except.ok.injEq, Option.some.injEq, Prod.mk.injEq] at h
          exact ⟨b, occ, rfl, ho, hwin.1, hwin.2, h.1.symm, h.2.symm⟩
      · exact absurd h (by simp)

/-- A qualifying record's step either overflows past year 9999 during the
weekend shift or produces exactly the name/formatted-date entry. -/
theorem gub_step_of_qualifies {now : PyDateTime} {u : Record} {b : Date}
    {occ : Date} (hb : u.birthday = some b)
    (hocc : strpOcc now.date.year b.month b.day = some occ)
    (h0 : 0 ≤ pyDiffDays occ now) (h7 : pyDiffDays occ now ≤ 7) :
    gub_step now u = .error .overflowError ∨
      gub_step now u = .ok (some (u.name, fmtYMD (shiftWeekend occ))) := by
  unfold gub_step
  simp only [hb, hocc]
  rw [if_pos (⟨h0, h7⟩ : (0 ≤ pyDiffDays occ now ∧ pyDiffDays occ now ≤ 7))]
  by_cases hy : 9999 < (shiftWeekend occ).year
  · exact Or.inl (by rw [if_pos hy])
  · exact Or.inr (by rw [if_neg hy])

/-- C2: every contact included by the scan is emitted under its record's
name with the occurrence formatted `YYYY.MM.DD`; when the occurrence falls
on Saturday or Sunday (weekday index 5 or 6, Monday-indexed) the emitted
date is the occurrence shifted forward by `7 - weekdayIndex` days, which is
the next Monday (weekday index 0); otherwise it is the occurrence itself. -/
theorem C2_weekend_shift (book : AddressBook) (now : PyDateTime)
    (out : List (String × String))
    (hok : get_upcoming_birthdays book now = .ok out)
    (k : String) (r : Record) (hmem : (k, r) ∈ book)
    (b occ : Date) (hb : r.birthday = some b)
    (hocc : strpOcc now.date.year b.month b.day = some occ)
    (h0 : 0 ≤ pyDiffDays occ now) (h7 : pyDiffDays occ now ≤ 7) :
    (r.name, fmtYMD (shiftWeekend occ)) ∈ out ∧
    (5 ≤ weekday occ →
      shiftWeekend occ = addDays occ (7 - weekday occ) ∧
      weekday (shiftWeekend occ) = 0) ∧
    (weekday occ < 5 → shiftWeekend occ = occ) := by
  have hval : validDate occ := by
    rcases (strpOcc_eq_some now.date.year b.month b.day occ).1 hocc with
      ⟨heq, -, -, hv⟩
    rw [heq]
    exact hv
  have hok' : gub_list now (dict_values book) = .ok out := hok
  have hrv : r ∈ dict_values book := List.mem_map_of_mem Prod.snd hmem
  refine ⟨?_, ?_, ?_⟩
  · obtain ⟨o, ho, hmem'⟩ := gub_list_ok_of_mem hok' hrv
    rcases gub_step_of_qualifies hb hocc h0 h7 with herr | hsome
    · rw [ho] at herr
      exact absurd herr (by simp)
    · have hcomb := ho.symm.trans hsome
      injection hcomb with hcomb
      exact hmem' _ hcomb
  · intro hw
    have hshift : shiftWeekend occ = addDays occ (7 - weekday occ) := by
      unfold shiftWeekend
      rw [if_pos hw]
    refine ⟨hshift, ?_⟩
    rw [hshift]
    exact weekday_shift_monday occ hval hw
  · intro hw
    unfold shiftWeekend
    rw [if_neg (by omega)]

/-- Witness for C2: today is Monday 2024-06-10 at midnight, Ben's birthday
is 15.06.1985, the occurrence 2024-06-15 is a Saturday (raw difference 5),
and the emitted congratulation date is Monday 2024-06-17. -/
theorem C2_weekend_shift_witness :
    (("Ben" : String), fmtYMD (shiftWeekend ⟨2024, 6, 15⟩)) ∈
      [(("Ben" : String), ("2024.06.17" : String))] ∧
    (5 ≤ weekday ⟨2024, 6, 15⟩ →
      shiftWeekend ⟨2024, 6, 15⟩ =
        addDays ⟨2024, 6, 15⟩ (7 - weekday ⟨2024, 6, 15⟩) ∧
      weekday (shiftWeekend ⟨2024, 6, 15⟩) = 0) ∧
    (weekday ⟨2024, 6, 15⟩ < 5 → shiftWeekend ⟨2024, 6, 15⟩ = ⟨2024, 6, 15⟩) :=
  C2_weekend_shift [("Ben", ⟨"Ben", ["1234567890"], some ⟨1985, 6, 15⟩⟩)]
    ⟨⟨2024, 6, 10⟩, 0⟩ [("Ben", "2024.06.17")] rfl
    "Ben" ⟨"Ben", ["1234567890"], some ⟨1985, 6, 15⟩⟩ (by simp)
    ⟨1985, 6, 15⟩ ⟨2024, 6, 15⟩ rfl rfl (by decide) (by decide)

/-- C1 counterexample: contact "Ann" has her birthday occurrence exactly on
today's calendar date (the claim's day difference is 0, inside the claimed
inclusive window 0..7), yet when the scan runs at noon the code's truncating
`timedelta.days` yields -1 and Ann is excluded from the results. -/
theorem C1_counterexample :
    ¬ ∀ (out : List (String × String)),
        get_upcoming_birthdays
            [("Ann", ⟨"Ann", ["0123456789"], some ⟨1990, 6, 10⟩⟩)]
            ⟨⟨2024, 6, 10⟩, 43200000000⟩ = .ok out →
          ((0 ≤ dateDiff ⟨2024, 6, 10⟩ ⟨2024, 6, 10⟩ ∧
              dateDiff ⟨2024, 6, 10⟩ ⟨2024, 6, 10⟩ ≤ 7) →
            ∃ st, (("Ann" : String), st) ∈ out) := by
  intro hclaim
  have h := hclaim [] rfl ⟨by decide, by decide⟩
  obtain ⟨st, hst⟩ := h
  exact List.not_mem_nil _ hst

/-- C1 (amended): for a successful scan over a book with distinct record
names, a contact is included iff it has a birthday whose occurrence this
year can be constructed and the occurrence lies in the window determined by
the time of day of `datetime.now()`: at exactly midnight the window is
calendar-day difference 0..7 (today through seven days ahead); at any later
time of day it is 1..8 (tomorrow through eight days ahead), so a birthday
today is excluded.  Past occurrences never wrap to the next year. -/
theorem C1_window (book : AddressBook) (now : PyDateTime)
    (out : List (String × String))
    (hok : get_upcoming_birthdays book now = .ok out)
    (hus : now.usecs < usecPerDay)
    (hnodup : ((dict_values book).map Record.name).Nodup)
    (k : String) (r : Record) (hmem : (k, r) ∈ book) :
    (∃ st, (r.name, st) ∈ out) ↔
      ∃ b occ, r.birthday = some b ∧
        strpOcc now.date.year b.month b.day = some occ ∧
        (if now.usecs = 0
          then 0 ≤ dateDiff occ now.date ∧ dateDiff occ now.date ≤ 7
          else 1 ≤ dateDiff occ now.date ∧ dateDiff occ now.date ≤ 8) := by
  have hok' : gub_list now (dict_values book) = .ok out := hok
  have hrv : r ∈ dict_values book := List.mem_map_of_mem Prod.snd hmem
  constructor
  · rintro ⟨st, hst⟩
    obtain ⟨u, hu, hstep⟩ := gub_list_mem_src hok' hst
    obtain ⟨b, occ, hb, hocc, h0, h7, hn, -⟩ := gub_step_ok_some hstep
    have hur : u = r := List.inj_on_of_nodup_map hnodup hu hrv hn.symm
    subst hur
    exact ⟨b, occ, hb, hocc, (pyWindow_iff occ now hus).1 ⟨h0, h7⟩⟩
  · rintro ⟨b, occ, hb, hocc, hwin⟩
    obtain ⟨h0, h7⟩ := (pyWindow_iff occ now hus).2 hwin
    obtain ⟨o, ho, hmem'⟩ := gub_list_ok_of_mem hok' hrv
    rcases gub_step_of_qualifies hb hocc h0 h7 with herr | hsome
    · rw [ho] at herr
      exact absurd herr (by simp)
    · have hcomb := ho.symm.trans hsome
      injection hcomb with hcomb
      exact ⟨_, hmem' _ hcomb⟩

/-- Witness for the amended C1: for Ben's book scanned at noon on
2024-06-10, inclusion in the output is equivalent to the 1..8 window on the
calendar-day difference (the occurrence 2024-06-15 has difference 5). -/
theorem C1_window_witness :
    (∃ st, (("Ben" : String), st) ∈
        [(("Ben" : String), ("2024.06.17" : String))]) ↔
      ∃ b occ, (some ⟨1985, 6, 15⟩ : Option Date) = some b ∧
        strpOcc 2024 b.month b.day = some occ ∧
        (if (43200000000 : Nat) = 0
          then 0 ≤ dateDiff occ ⟨2024, 6, 10⟩ ∧ dateDiff occ ⟨2024, 6, 10⟩ ≤ 7
          else 1 ≤ dateDiff occ ⟨2024, 6, 10⟩ ∧
            dateDiff occ ⟨2024, 6, 10⟩ ≤ 8) :=
  C1_window [("Ben", ⟨"Ben", ["1234567890"], some ⟨1985, 6, 15⟩⟩)]
    ⟨⟨2024, 6, 10⟩, 43200000000⟩ [("Ben", "2024.06.17")] rfl (by decide)
    (by decide) "Ben" ⟨"Ben", ["1234567890"], some ⟨1985, 6, 15⟩⟩ (by simp)
